import Mathlib

/-!
# Verification of the grid resampling and surface-compositing engine

This file gives a shallow embedding, in Lean 4, of the numerical core of an
oceanographic 3D viewer: bathymetry sign normalization and downsampling
(`tryLoadBathyJson` in `src/components/Basemap3D.tsx`), the depth-axis warp
(`scaleZ`), nearest-neighbor resampling of overlay fields
(`overlaySurfacecolor`), the masking pass for surface-mode overlay planes
(`valuesMasked`), the wind-particle spawn logic (`spawn`), the linear palette
builder (`makeLinearPalette` in `src/lib/colormap.ts`), and the RGB332
quantization pair (`rgbToIndex332` / `index332ToRgb` in
`src/lib/imageSampling.ts`).

Modelling conventions:
* A JavaScript number is modelled as `Option ℚ`: `some q` is a finite value,
  `none` stands for a non-finite value (`NaN` or `±Infinity`).  The code under
  study only ever branches on `Number.isFinite` and on order comparisons of
  finite values, so merging the non-finite values into one `none` is faithful;
  arithmetic on doubles is idealized as exact rational arithmetic.
* Out-of-range array reads in JavaScript yield `undefined`, which the source
  turns into `NaN` via `Number(...)`; reads are therefore modelled with
  `List.getElem?` followed by `Option.join` (a missing cell becomes `none`).
-/

/-- A JavaScript number: `some q` = finite value, `none` = non-finite. -/
abbrev V := Option ℚ

/-- Read cell `i` of a row of JS numbers; `row[i]` with `undefined ↦ NaN`. -/
def getCell (row : List V) (i : ℕ) : V := (row[i]?).join

/-- Read row `j` of a 2D JS array; `z[j] ?? []`. -/
def getRow (z : List (List V)) (j : ℕ) : List V := (z[j]?).getD []

/-- `Array.prototype.map` with the element index, starting at `k`. -/
def mapIdxFrom (f : ℕ → α → β) : ℕ → List α → List β
  | _, [] => []
  | k, a :: as => f k a :: mapIdxFrom f (k + 1) as

theorem mapIdxFrom_getElem? (f : ℕ → α → β) (k : ℕ) (l : List α) (i : ℕ) :
    (mapIdxFrom f k l)[i]? = (l[i]?).map (f (k + i)) := by
  induction l generalizing k i with
  | nil => simp [mapIdxFrom]
  | cons a as ih =>
    cases i with
    | zero => simp [mapIdxFrom]
    | succ n =>
      simp only [mapIdxFrom, List.getElem?_cons_succ, ih (k + 1) n]
      ring_nf

theorem mapIdxFrom_length (f : ℕ → α → β) (k : ℕ) (l : List α) :
    (mapIdxFrom f k l).length = l.length := by
  induction l generalizing k with
  | nil => rfl
  | cons a as ih => simp [mapIdxFrom, ih]

/-! ## Sign normalization (`tryLoadBathyJson`, Basemap3D.tsx lines 240–269)

The loader scans all finite non-zero values of the raw `z` grid for signs
(`hasNeg` / `hasPos`), and negates every value exactly when no negative finite
value exists but a positive one does. -/

/-- The scan body: a value counts as negative only when finite and `< 0`
(non-finite values and exact zeros are skipped by the `continue`). -/
def isNegVal : V → Bool
  | some q => q < 0
  | none => false

/-- A value counts as positive only when finite and `> 0`. -/
def isPosVal : V → Bool
  | some q => 0 < q
  | none => false

/-- `hasNeg` flag of the sign scan in `tryLoadBathyJson`. -/
def hasNeg (z : List (List V)) : Bool := z.any (fun row => row.any isNegVal)

/-- `hasPos` flag of the sign scan in `tryLoadBathyJson`. -/
def hasPos (z : List (List V)) : Bool := z.any (fun row => row.any isPosVal)

/-- `row[i] = -row[i]` over the whole grid (negation keeps non-finite
values non-finite, so `none ↦ none`). -/
def negateGrid (z : List (List V)) : List (List V) :=
  z.map (fun row => row.map (Option.map (fun q => -q)))

/-- The one-shot flip decision of `tryLoadBathyJson`: negate all values iff
`!hasNeg && hasPos`. -/
def normalizeSign (z : List (List V)) : List (List V) :=
  if !hasNeg z && hasPos z then negateGrid z else z

theorem isNegVal_negate (v : V) :
    isNegVal (Option.map (fun q : ℚ => -q) v) = isPosVal v := by
  cases v with
  | none => rfl
  | some q => simp [isNegVal, isPosVal, neg_lt_zero]

theorem hasNeg_negateGrid (z : List (List V)) :
    hasNeg (negateGrid z) = hasPos z := by
  simp [hasNeg, hasPos, negateGrid, List.any_map, Function.comp_def, isNegVal_negate]

theorem normalizeSign_of_hasNeg (z : List (List V)) (h : hasNeg z = true) :
    normalizeSign z = z := by
  simp [normalizeSign, h]

theorem normalizeSign_flip (z : List (List V))
    (hn : hasNeg z = false) (hp : hasPos z = true) :
    normalizeSign z = negateGrid z := by
  simp [normalizeSign, hn, hp]

theorem normalizeSign_idem (z : List (List V)) :
    normalizeSign (normalizeSign z) = normalizeSign z := by
  by_cases hn : hasNeg z = true
  · rw [normalizeSign_of_hasNeg z hn, normalizeSign_of_hasNeg z hn]
  · rw [Bool.not_eq_true] at hn
    by_cases hp : hasPos z = true
    · rw [normalizeSign_flip z hn hp]
      have : hasNeg (negateGrid z) = true := by rw [hasNeg_negateGrid]; exact hp
      exact normalizeSign_of_hasNeg _ this
    · rw [Bool.not_eq_true] at hp
      have hz : normalizeSign z = z := by simp [normalizeSign, hn, hp]
      rw [hz, hz]

/-- C1: Sign normalization is a global one-shot decision and is idempotent:
a grid with a finite negative value is kept as-is; a grid with no negative but
some positive finite value is negated wholesale; and re-running normalization
(in particular on an already-flipped result, which then has a negative value)
performs no second flip. -/
theorem sign_normalization_one_shot_idempotent (z : List (List V)) :
    (hasNeg z = true → normalizeSign z = z) ∧
    (hasNeg z = false → hasPos z = true →
      normalizeSign z = negateGrid z ∧ hasNeg (negateGrid z) = true) ∧
    normalizeSign (normalizeSign z) = normalizeSign z := by
  refine ⟨normalizeSign_of_hasNeg z, ?_, normalizeSign_idem z⟩
  intro hn hp
  exact ⟨normalizeSign_flip z hn hp, by rw [hasNeg_negateGrid]; exact hp⟩

/-- Witness for C1 at the spec's concrete all-positive grid
`z = [[2000, 2100], [1900, 2050]]`: it gets flipped, and the flipped grid
has a negative value, so normalization of it is the identity. -/
theorem sign_normalization_one_shot_idempotent_witness :
    normalizeSign [[some 2000, some 2100], [some 1900, some 2050]] =
      negateGrid [[some 2000, some 2100], [some 1900, some 2050]] ∧
    hasNeg (negateGrid [[some 2000, some 2100], [some 1900, some 2050]]) = true := by
  exact (sign_normalization_one_shot_idempotent
    [[some 2000, some 2100], [some 1900, some 2050]]).2.1 (by decide) (by decide)

/-! ## Depth-axis warp (`depthWarp` / `scaleZ`, Basemap3D.tsx lines 603–625)

`scaleZ` is a pure transform of the vertical coordinate; the configuration
clamps the focus depth to `[50, 20000]` and the deep ratio to `[0.05, 1]`.
The source first passes non-finite inputs through unchanged; the ℚ model only
carries finite values, so that branch is vacuous here. -/

inductive WarpMode where
  | linear
  | upperFocus
deriving DecidableEq

structure DepthWarp where
  mode : WarpMode
  focusDepthM : ℚ
  deepRatio : ℚ

/-- The `depthWarp` memo: clamp the configured focus depth to `[50, 20000]`
and the deep-compression ratio to `[0.05, 1]`. -/
def mkDepthWarp (mode : WarpMode) (focusIn deepIn : ℚ) : DepthWarp :=
  { mode := mode
    focusDepthM := max 50 (min 20000 focusIn)
    deepRatio := max (1/20) (min 1 deepIn) }

/-- `scaleZ`: identity at or above sea level and in linear mode; in
upper-focus mode, depths beyond the focus depth are compressed by
`deepRatio`. -/
def scaleZ (w : DepthWarp) (z : ℚ) : ℚ :=
  if 0 ≤ z then z
  else
    match w.mode with
    | .linear => z
    | .upperFocus =>
      let depth := -z
      let focus := w.focusDepthM
      if depth ≤ focus then z
      else -(focus + (depth - focus) * w.deepRatio)

theorem mkDepthWarp_focus_pos (mode : WarpMode) (focusIn deepIn : ℚ) :
    0 < (mkDepthWarp mode focusIn deepIn).focusDepthM := by
  have : (50 : ℚ) ≤ max 50 (min 20000 focusIn) := le_max_left _ _
  simp only [mkDepthWarp]
  linarith

theorem mkDepthWarp_ratio_pos (mode : WarpMode) (focusIn deepIn : ℚ) :
    0 < (mkDepthWarp mode focusIn deepIn).deepRatio := by
  have : (1/20 : ℚ) ≤ max (1/20) (min 1 deepIn) := le_max_left _ _
  simp only [mkDepthWarp]
  linarith

/-- C2: for every warp configuration (any mode, with the source's clamping of
focus depth and deep ratio), `scaleZ` is monotone on pairs `d1 < d2 ≤ 0` and
is the identity at or above sea level. -/
theorem scaleZ_monotone_and_identity_above_sea
    (mode : WarpMode) (focusIn deepIn : ℚ) :
    (∀ d1 d2 : ℚ, d1 < d2 → d2 ≤ 0 →
      scaleZ (mkDepthWarp mode focusIn deepIn) d1 ≤
        scaleZ (mkDepthWarp mode focusIn deepIn) d2) ∧
    (∀ z : ℚ, 0 ≤ z → scaleZ (mkDepthWarp mode focusIn deepIn) z = z) := by
  set w := mkDepthWarp mode focusIn deepIn with hw
  have hF : 0 < w.focusDepthM := mkDepthWarp_focus_pos mode focusIn deepIn
  have hR : 0 < w.deepRatio := mkDepthWarp_ratio_pos mode focusIn deepIn
  constructor
  · intro d1 d2 h12 h2
    have h1neg : d1 < 0 := lt_of_lt_of_le h12 h2
    have h1 : ¬ (0 ≤ d1) := not_le.mpr h1neg
    rcases eq_or_lt_of_le h2 with h2z | h2neg
    · -- d2 = 0: scaleZ w d2 = 0 and scaleZ w d1 ≤ 0 in every branch
      subst h2z
      simp only [scaleZ, if_neg h1, if_pos (le_refl (0 : ℚ))]
      cases hm : w.mode with
      | linear => exact le_of_lt h1neg
      | upperFocus =>
        simp only
        split
        · exact le_of_lt h1neg
        · rename_i hdeep
          push_neg at hdeep
          nlinarith
    · have h2' : ¬ (0 ≤ d2) := not_le.mpr h2neg
      rw [scaleZ, if_neg h1, scaleZ, if_neg h2']
      cases hm : w.mode with
      | linear => exact le_of_lt h12
      | upperFocus =>
        simp only
        by_cases hs2 : -d2 ≤ w.focusDepthM
        · by_cases hs1 : -d1 ≤ w.focusDepthM
          · rw [if_pos hs1, if_pos hs2]; exact le_of_lt h12
          · rw [if_neg hs1, if_pos hs2]
            push_neg at hs1
            nlinarith
        · have hs1 : ¬ (-d1 ≤ w.focusDepthM) := by
            push_neg at hs2 ⊢; linarith
          rw [if_neg hs1, if_neg hs2]
          push_neg at hs1 hs2
          nlinarith
  · intro z hz
    rw [scaleZ, if_pos hz]

/-- Witness for C2: upper-focus mode with focus 2500 m and ratio 0.25 on the
concrete pair `-4000 < -100 ≤ 0`, and identity at `z = 7`. -/
theorem scaleZ_monotone_and_identity_above_sea_witness :
    scaleZ (mkDepthWarp .upperFocus 2500 (1/4)) (-4000) ≤
      scaleZ (mkDepthWarp .upperFocus 2500 (1/4)) (-100) ∧
    scaleZ (mkDepthWarp .upperFocus 2500 (1/4)) 7 = 7 := by
  obtain ⟨hmono, hid⟩ :=
    scaleZ_monotone_and_identity_above_sea .upperFocus 2500 (1/4)
  exact ⟨hmono (-4000) (-100) (by norm_num) (by norm_num), hid 7 (by norm_num)⟩

/-! ## Nearest-neighbor resampling (`overlaySurfacecolor`, Basemap3D.tsx
lines 1044–1090)

The compositor uses a field's values directly when its shape matches the
bathymetry grid (`nRows === bathy.lat.length && nCols === bathy.lon.length`,
where `nCols` is the first row's length); otherwise it precomputes
nearest-index maps per axis and gathers source values. -/

/-- One step of the linear nearest-index scan: state is
`(next index, best index, best distance so far)`, with `none` standing for the
initial `Infinity` distance; updates only on a strict improvement, so the
first closest index wins ties, as in the source loop. -/
def nearestStep (x : ℚ) (st : ℕ × ℕ × Option ℚ) (q : ℚ) : ℕ × ℕ × Option ℚ :=
  let d := |q - x|
  match st with
  | (i, _, none) => (i + 1, i, some d)
  | (i, best, some bd) =>
    if d < bd then (i + 1, i, some d) else (i + 1, best, some bd)

/-- Index of the source coordinate closest (by absolute difference) to `x`;
`0` when the source axis is empty, as in the source (`best` stays `0`). -/
def nearestIdx (src : List ℚ) (x : ℚ) : ℕ :=
  (src.foldl (nearestStep x) (0, 0, none)).2.1

/-- `overlaySurfacecolor` (the numeric-field path): use the field's values
directly when already bathy-shaped, fall back to them when the field has no
axes, and otherwise resample by nearest neighbor onto the bathymetry grid. -/
def overlaySurfacecolor (fieldValues : List (List V))
    (fieldLon fieldLat : Option (List ℚ))
    (bathyLon bathyLat : List ℚ) : List (List V) :=
  let nRows := fieldValues.length
  let nCols := (fieldValues.headD []).length
  if nRows = bathyLat.length ∧ nCols = bathyLon.length then fieldValues
  else
    match fieldLon, fieldLat with
    | some flon, some flat =>
      let lonMap := bathyLon.map (nearestIdx flon)
      let latMap := bathyLat.map (nearestIdx flat)
      latMap.map (fun srcJ =>
        let srcRow := getRow fieldValues srcJ
        lonMap.map (fun srcI => getCell srcRow srcI))
    | _, _ => fieldValues

/-- C3: a field whose value array has exactly as many rows as the target
grid's `lat` axis and whose rows all have exactly the `lon` axis's length is
used bit-identically, with no resampling applied. -/
theorem overlaySurfacecolor_identity_on_matching_shape
    (fieldValues : List (List V)) (fieldLon fieldLat : Option (List ℚ))
    (bathyLon bathyLat : List ℚ)
    (hRows : fieldValues.length = bathyLat.length)
    (hCols : ∀ row ∈ fieldValues, row.length = bathyLon.length) :
    overlaySurfacecolor fieldValues fieldLon fieldLat bathyLon bathyLat =
      fieldValues := by
  cases hv : fieldValues with
  | nil =>
    -- degenerate empty field: bathyLat is also empty, so every branch
    -- produces the empty array back
    subst hv
    simp only [List.length_nil] at hRows
    have hlat : bathyLat = [] := List.eq_nil_of_length_eq_zero hRows.symm
    subst hlat
    simp only [overlaySurfacecolor]
    split
    · rfl
    · cases fieldLon <;> cases fieldLat <;> simp
  | cons r rs =>
    have hhead : (fieldValues.headD []).length = bathyLon.length := by
      rw [hv]; exact hCols r (by rw [hv]; exact List.mem_cons_self r rs)
    rw [← hv]
    unfold overlaySurfacecolor
    rw [if_pos ⟨hRows, hhead⟩]

/-- Witness for C3 on a concrete 2×3 field matching a 2×3 bathymetry grid. -/
theorem overlaySurfacecolor_identity_on_matching_shape_witness :
    overlaySurfacecolor [[some 1, some 2, none], [some 4, some 0, some 6]]
      (some [10, 20, 30]) (some [50, 60]) [0, 1, 2] [5, 6] =
      [[some 1, some 2, none], [some 4, some 0, some 6]] := by
  exact overlaySurfacecolor_identity_on_matching_shape _ _ _ _ _ (by decide)
    (by intro row hrow; fin_cases hrow <;> decide)

/-! ## Deterministic downsampling (`tryLoadBathyJson`, Basemap3D.tsx
lines 278–307)

When `nLat * nLon` exceeds the 250 000-point budget, the loader picks target
row/column counts preserving aspect ratio, derives integer strides, collects
the strided indices, and force-includes the last index of each axis.
`Math.floor(Math.sqrt((maxPoints * nLat) / nLon))` equals
`Nat.sqrt (maxPoints * nLat / nLon)` (taking the floor before the square root
does not change the integer square root), and `Math.ceil(n / t)` for positive
integers is `(n + t - 1) / t` in natural division. -/

def maxPoints : ℕ := 250000

/-- Indices produced by `for (let j = 0; j < n; j += stride) push(j)`:
the multiples `k * stride` with `k * stride < n`, i.e. `k < ⌈n / stride⌉`. -/
def strideIndices (n stride : ℕ) : List ℕ :=
  (List.range ((n + stride - 1) / stride)).map (· * stride)

/-- `if (idx[idx.length - 1] !== last) idx.push(last)` — on an empty list the
JS read is `undefined`, which also differs from `last`, so `last` is pushed. -/
def forceLast (idx : List ℕ) (last : ℕ) : List ℕ :=
  if idx.getLast? = some last then idx else idx ++ [last]

/-- A bathymetry grid after normalization: coordinate axes, geometry `z`
(land clamped to 0) and the optional signed `zRaw`. -/
structure BathyGrid where
  lon : List ℚ
  lat : List ℚ
  z : List (List V)
  zRaw : Option (List (List V))
deriving DecidableEq

/-- The downsampling step of `tryLoadBathyJson`.  The generated indices are
always in range, so the JS out-of-range read (`undefined → NaN`) on the
coordinate axes is unreachable; coordinate reads use `getD _ 0`. -/
def downsampleBathy (g : BathyGrid) : BathyGrid :=
  let nLat := g.lat.length
  let nLon := g.lon.length
  if maxPoints < nLat * nLon ∧ 0 < nLat ∧ 0 < nLon then
    let targetLat := max 80 (Nat.sqrt (maxPoints * nLat / nLon))
    let targetLon := max 80 (maxPoints / targetLat)
    let strideLat := max 1 ((nLat + targetLat - 1) / targetLat)
    let strideLon := max 1 ((nLon + targetLon - 1) / targetLon)
    let latIdx := forceLast (strideIndices nLat strideLat) (nLat - 1)
    let lonIdx := forceLast (strideIndices nLon strideLon) (nLon - 1)
    { lon := lonIdx.map (fun i => g.lon.getD i 0)
      lat := latIdx.map (fun j => g.lat.getD j 0)
      z := latIdx.map (fun j => lonIdx.map (fun i => getCell (getRow g.z j) i))
      zRaw := g.zRaw.map (fun zr =>
        latIdx.map (fun j => lonIdx.map (fun i => getCell (getRow zr j) i))) }
  else g

theorem zero_mem_strideIndices (n stride : ℕ) (hn : 0 < n) (hs : 0 < stride) :
    0 ∈ strideIndices n stride := by
  have hcount : 0 < (n + stride - 1) / stride := by
    apply Nat.div_pos _ hs
    omega
  unfold strideIndices
  refine List.mem_map.mpr ⟨0, ?_, by simp⟩
  rw [List.mem_range]
  exact hcount

theorem mem_forceLast_of_mem {idx : List ℕ} {a : ℕ} (last : ℕ) (h : a ∈ idx) :
    a ∈ forceLast idx last := by
  unfold forceLast
  split
  · exact h
  · exact List.mem_append_left _ h

theorem last_mem_forceLast (idx : List ℕ) (last : ℕ) :
    last ∈ forceLast idx last := by
  unfold forceLast
  split
  · rename_i h
    obtain ⟨hne, heq⟩ := List.mem_getLast?_eq_getLast (Option.mem_def.mpr h)
    rw [heq]
    exact List.getLast_mem hne
  · exact List.mem_append_right _ (List.mem_singleton_self last)

/-- C4: for every grid whose point count exceeds the 250 000-point budget, the
downsampled `lon` axis contains the original first and last `lon` values, and
likewise for `lat`. -/
theorem downsample_preserves_extremes (g : BathyGrid)
    (h : maxPoints < g.lat.length * g.lon.length) :
    g.lon.getD 0 0 ∈ (downsampleBathy g).lon ∧
    g.lon.getD (g.lon.length - 1) 0 ∈ (downsampleBathy g).lon ∧
    g.lat.getD 0 0 ∈ (downsampleBathy g).lat ∧
    g.lat.getD (g.lat.length - 1) 0 ∈ (downsampleBathy g).lat := by
  have hLat : 0 < g.lat.length := by
    rcases Nat.eq_zero_or_pos g.lat.length with h0 | hp
    · rw [h0, Nat.zero_mul] at h; exact absurd h (by decide)
    · exact hp
  have hLon : 0 < g.lon.length := by
    rcases Nat.eq_zero_or_pos g.lon.length with h0 | hp
    · rw [h0, Nat.mul_zero] at h; exact absurd h (by decide)
    · exact hp
  unfold downsampleBathy
  rw [if_pos ⟨h, hLat, hLon⟩]
  refine ⟨?_, ?_, ?_, ?_⟩
  · exact List.mem_map_of_mem _ (mem_forceLast_of_mem _
      (zero_mem_strideIndices _ _ hLon (by positivity)))
  · exact List.mem_map_of_mem _ (last_mem_forceLast _ _)
  · exact List.mem_map_of_mem _ (mem_forceLast_of_mem _
      (zero_mem_strideIndices _ _ hLat (by positivity)))
  · exact List.mem_map_of_mem _ (last_mem_forceLast _ _)

/-! ## Surface-plane masking (`plane` / `valuesMasked`, Basemap3D.tsx
lines 1301–1424)

A surface-mode overlay plane carries the field's axes and values together with
its masking flags; `valuesMasked` then applies, per cell and in order:
non-finite → missing, zero-as-missing, dry-by-bathymetry for exact zeros, and
the declared bounding box. -/

/-- `bathyHasOceanNeg` (Basemap3D.tsx lines 578–590): the loaded grid's
signed `zRaw` holds some finite value below `-0.5`. -/
def bathyHasOceanNeg (zRaw? : Option (List (List V))) : Bool :=
  match zRaw? with
  | none => false
  | some zRaw => zRaw.any (fun row => row.any (fun v =>
      match v with
      | some q => decide (q < -(1/2))
      | none => false))

/-- A declared lon/lat bounding box of an overlay field. -/
structure Bounds where
  lonMin : ℚ
  lonMax : ℚ
  latMin : ℚ
  latMax : ℚ
deriving DecidableEq

/-- A surface-mode numeric overlay field as handed to the compositor
(`numericH`): values, optional native axes, optional bounds, and the two
masking flags (`maskDryByBathy` is tri-state: unset / true / false). -/
structure NumericHField where
  values : List (List V)
  lon : Option (List ℚ)
  lat : Option (List ℚ)
  bounds : Option Bounds
  zeroAsMissing : Bool
  maskDryByBathy : Option Bool
deriving DecidableEq

/-- The plane configuration produced by the `plane` IIFE (lines 1311–1360). -/
structure PlaneCfg where
  x : List ℚ
  y : List ℚ
  values : List (List V)
  bounds : Option Bounds
  zeroAsMissing : Bool
  maskDryByBathy : Bool
deriving DecidableEq

/-- The `plane` selection for a numeric field: prefer the native lon/lat grid
when its axis lengths match the value array, fall back to a bathy-shaped
plot, and as a last resort use the nearest-neighbor resampled values on the
bathymetry grid.  In every numeric branch
`maskDryByBathy := numericH.maskDryByBathy !== false`. -/
def mkPlane (f : NumericHField) (b : BathyGrid) : PlaneCfg :=
  let ny := f.values.length
  let nx := (f.values.headD []).length
  let dry : Bool := f.maskDryByBathy != some false
  let fallback : PlaneCfg :=
    if ny = b.lat.length ∧ nx = b.lon.length then
      { x := b.lon, y := b.lat, values := f.values, bounds := f.bounds
        zeroAsMissing := f.zeroAsMissing, maskDryByBathy := dry }
    else
      { x := b.lon, y := b.lat
        values := overlaySurfacecolor f.values f.lon f.lat b.lon b.lat
        bounds := f.bounds
        zeroAsMissing := f.zeroAsMissing, maskDryByBathy := dry }
  match f.lon, f.lat with
  | some flon, some flat =>
    if flon.length = nx ∧ flat.length = ny then
      { x := flon, y := flat, values := f.values, bounds := f.bounds
        zeroAsMissing := f.zeroAsMissing, maskDryByBathy := dry }
    else fallback
  | _, _ => fallback

/-- The precomputed `lonMap` of the dry mask: nearest bathymetry-lon index of
each plane x-coordinate, present only when `maskDryByBathy` is set. -/
def planeLonMap (b : BathyGrid) (p : PlaneCfg) : Option (List ℕ) :=
  if p.maskDryByBathy then some (p.x.map (nearestIdx b.lon)) else none

/-- The precomputed `latMap` of the dry mask. -/
def planeLatMap (b : BathyGrid) (p : PlaneCfg) : Option (List ℕ) :=
  if p.maskDryByBathy then some (p.y.map (nearestIdx b.lat)) else none

/-- The dry-by-bathymetry test of `valuesMasked`: fires only when the grid
has ocean-negative data, the value is exactly 0, both index maps exist, and
the nearest bathymetry cell's depth is finite and `≥ -1e-6`.  Out-of-range
index-map reads produce a `NaN` depth in the source and never fire. -/
def dryHit (b : BathyGrid) (oceanNeg : Bool)
    (lonMap? latMap? : Option (List ℕ)) (j i : ℕ) (val : ℚ) : Bool :=
  match lonMap?, latMap? with
  | some lonMap, some latMap =>
    oceanNeg && decide (val = 0) &&
      (match latMap[j]?, lonMap[i]? with
       | some jj, some ii =>
         match getCell (getRow b.z jj) ii with
         | some depth => decide (-(1/1000000 : ℚ) ≤ depth)
         | none => false
       | _, _ => false)
  | _, _ => false

/-- The bounding-box test of `valuesMasked`: true when no bounds are
declared, or the cell's lon/lat lies inside the min/max-normalized box.  A
missing coordinate is `NaN` in the source, whose comparisons are false. -/
def insideBounds (p : PlaneCfg) (j i : ℕ) : Bool :=
  match p.bounds with
  | none => true
  | some bd =>
    match p.x[i]?, p.y[j]? with
    | some lon, some lat =>
      decide (min bd.lonMin bd.lonMax ≤ lon) &&
        decide (lon ≤ max bd.lonMin bd.lonMax) &&
        decide (min bd.latMin bd.latMax ≤ lat) &&
        decide (lat ≤ max bd.latMin bd.latMax)
    | _, _ => false

/-- One cell of `valuesMasked`, with the source's check order: non-finite,
zero-as-missing, dry-by-bathymetry (for exact zeros), bounding box. -/
def maskCell (b : BathyGrid) (oceanNeg : Bool) (p : PlaneCfg)
    (lonMap? latMap? : Option (List ℕ)) (j i : ℕ) (v : V) : V :=
  match v with
  | none => none
  | some val =>
    if p.zeroAsMissing ∧ val = 0 then none
    else if dryHit b oceanNeg lonMap? latMap? j i val then none
    else if insideBounds p j i then some val
    else none

/-- `valuesMasked`: the per-cell masking pass over the whole plane. -/
def valuesMasked (b : BathyGrid) (oceanNeg : Bool) (p : PlaneCfg) :
    List (List V) :=
  mapIdxFrom (fun j row => mapIdxFrom (fun i v =>
    maskCell b oceanNeg p (planeLonMap b p) (planeLatMap b p) j i v) 0 row)
    0 p.values

theorem valuesMasked_cell (b : BathyGrid) (oceanNeg : Bool) (p : PlaneCfg)
    (j i : ℕ) (row : List V) (v : V)
    (hrow : p.values[j]? = some row) (hv : row[i]? = some v) :
    (getRow (valuesMasked b oceanNeg p) j)[i]? =
      some (maskCell b oceanNeg p (planeLonMap b p) (planeLatMap b p) j i v) := by
  unfold valuesMasked getRow
  rw [mapIdxFrom_getElem?, hrow]
  simp only [Option.map_some', Option.getD_some, Nat.zero_add]
  rw [mapIdxFrom_getElem?, hv]
  simp

/-- A concrete oversized grid (500 × 501 = 250 500 points) for the
downsampling witness. -/
def oversizedGrid : BathyGrid :=
  { lon := (List.range 501).map (fun i : ℕ => (i : ℚ))
    lat := (List.range 500).map (fun j : ℕ => (j : ℚ))
    z := []
    zRaw := none }

/-- Witness for C4 on `oversizedGrid`. -/
theorem downsample_preserves_extremes_witness :
    oversizedGrid.lon.getD 0 0 ∈ (downsampleBathy oversizedGrid).lon ∧
    oversizedGrid.lon.getD (oversizedGrid.lon.length - 1) 0 ∈
      (downsampleBathy oversizedGrid).lon ∧
    oversizedGrid.lat.getD 0 0 ∈ (downsampleBathy oversizedGrid).lat ∧
    oversizedGrid.lat.getD (oversizedGrid.lat.length - 1) 0 ∈
      (downsampleBathy oversizedGrid).lat := by
  apply downsample_preserves_extremes
  show maxPoints < oversizedGrid.lat.length * oversizedGrid.lon.length
  unfold oversizedGrid
  simp only [List.length_map, List.length_range]
  norm_num [maxPoints]

/-- C5: a cell whose source value is non-finite is masked to missing for
every combination of the masking flags, bounds, and bathymetry data. -/
theorem nonfinite_always_masked (b : BathyGrid) (oceanNeg : Bool)
    (p : PlaneCfg) (j i : ℕ)
    (h : (getRow p.values j)[i]? = some none) :
    (getRow (valuesMasked b oceanNeg p) j)[i]? = some none := by
  cases hrow : p.values[j]? with
  | none => rw [getRow, hrow] at h; simp at h
  | some row =>
    rw [getRow, hrow, Option.getD_some] at h
    rw [valuesMasked_cell b oceanNeg p j i row none hrow h]
    rfl

/-- Witness for C5: a NaN cell stays missing on a concrete plane with all
other masks off. -/
theorem nonfinite_always_masked_witness :
    (getRow (valuesMasked ⟨[0], [0], [[some (-100)]], none⟩ false
      ⟨[0], [0], [[none, some 3]], none, false, false⟩ ) 0)[0]? = some none := by
  exact nonfinite_always_masked ⟨[0], [0], [[some (-100)]], none⟩ false
    ⟨[0], [0], [[none, some 3]], none, false, false⟩ 0 0 (by decide)

/-- A one-cell bathymetry grid whose signed `zRaw` contains real ocean
(`-100 < -0.5`) while its geometry cell is dry (depth `0`). -/
def dryCellBathy : BathyGrid := ⟨[0], [0], [[some 0]], some [[some (-100)]]⟩

/-- A one-cell field holding the exact value `0`, with `zeroAsMissing` off and
`maskDryByBathy` explicitly set to `true`. -/
def zeroCellField : NumericHField := ⟨[[some 0]], some [0], some [0], none, false, some true⟩

/-- Counterexample for C6: on `dryCellBathy`, the `zeroCellField` cell has
raw value exactly `0` and `zeroAsMissing = false`, yet the rendered cell is
missing — the dry-by-bathymetry rule masks it, so "a value of 0 with the flag
false renders as a valid 0" fails as a universal statement. -/
theorem zero_with_flag_false_still_masked :
    (mkPlane zeroCellField dryCellBathy).zeroAsMissing = false ∧
    (getRow (mkPlane zeroCellField dryCellBathy).values 0)[0]? = some (some 0) ∧
    (getRow (valuesMasked dryCellBathy (bathyHasOceanNeg dryCellBathy.zRaw)
      (mkPlane zeroCellField dryCellBathy)) 0)[0]? = some none := by
  refine ⟨rfl, rfl, ?_⟩
  norm_num [valuesMasked, maskCell, dryHit, insideBounds, planeLonMap,
    planeLatMap, nearestIdx, nearestStep, bathyHasOceanNeg, mkPlane, getRow,
    getCell, mapIdxFrom, zeroCellField, dryCellBathy]

/-- C6 (amended): a raw value of exactly `0` is rendered missing whenever
`zeroAsMissing` is set; with `zeroAsMissing` unset it is rendered as a valid
`0` provided the dry-by-bathymetry mask does not fire at that cell and the
cell lies inside the declared bounding box. -/
theorem zero_as_missing_flag_cases (b : BathyGrid) (oceanNeg : Bool)
    (p : PlaneCfg) (j i : ℕ)
    (hraw : (getRow p.values j)[i]? = some (some 0)) :
    (p.zeroAsMissing = true →
      (getRow (valuesMasked b oceanNeg p) j)[i]? = some none) ∧
    (p.zeroAsMissing = false →
      dryHit b oceanNeg (planeLonMap b p) (planeLatMap b p) j i 0 = false →
      insideBounds p j i = true →
      (getRow (valuesMasked b oceanNeg p) j)[i]? = some (some 0)) := by
  obtain ⟨row, hrow, hv⟩ : ∃ row, p.values[j]? = some row ∧ row[i]? = some (some 0) := by
    cases hrow : p.values[j]? with
    | none => rw [getRow, hrow] at hraw; simp at hraw
    | some row =>
      rw [getRow, hrow, Option.getD_some] at hraw
      exact ⟨row, rfl, hraw⟩
  rw [valuesMasked_cell b oceanNeg p j i row (some 0) hrow hv]
  constructor
  · intro hz
    simp [maskCell, hz]
  · intro hz hdry hin
    simp [maskCell, hz, hdry, hin]

/-- Witness for C6 (amended) on one-cell planes: with the flag set the zero
cell is missing; with it unset (and no other mask firing) it stays `0`. -/
theorem zero_as_missing_flag_cases_witness :
    (getRow (valuesMasked ⟨[0], [0], [[some (-5)]], none⟩ false
      ⟨[0], [0], [[some 0]], none, true, false⟩) 0)[0]? = some none ∧
    (getRow (valuesMasked ⟨[0], [0], [[some (-5)]], none⟩ false
      ⟨[0], [0], [[some 0]], none, false, false⟩) 0)[0]? = some (some 0) := by
  refine ⟨(zero_as_missing_flag_cases ⟨[0], [0], [[some (-5)]], none⟩ false
      ⟨[0], [0], [[some 0]], none, true, false⟩ 0 0 (by decide)).1 rfl,
    (zero_as_missing_flag_cases ⟨[0], [0], [[some (-5)]], none⟩ false
      ⟨[0], [0], [[some 0]], none, false, false⟩ 0 0 (by decide)).2 rfl
      (by decide) (by decide)⟩

/-- A one-cell bathymetry grid whose `zRaw` has no value below `-0.5`
(`bathyHasOceanNeg` is false) while its geometry cell is at sea level. -/
def flatBathy : BathyGrid := ⟨[0], [0], [[some 0]], some [[some 0]]⟩

/-- A one-cell zero-valued field that leaves `maskDryByBathy` unset. -/
def zeroCellFieldDefault : NumericHField := ⟨[[some 0]], some [0], some [0], none, false, none⟩

/-- Counterexample for C9: the field never sets `maskDryByBathy` and the flag
indeed defaults to `true`, and the nearest bathymetry cell is at sea level
(depth `0 ≥ -1e-6`) — yet the exact-zero value is rendered as a valid `0`,
not missing, because the loaded grid has no `zRaw` value below `-0.5`
(`bathyHasOceanNeg` is false) and the dry mask is additionally gated on
that. -/
theorem mask_dry_default_without_ocean_negative :
    (mkPlane zeroCellFieldDefault flatBathy).maskDryByBathy = true ∧
    getCell (getRow flatBathy.z 0) 0 = some 0 ∧
    (getRow (valuesMasked flatBathy (bathyHasOceanNeg flatBathy.zRaw)
      (mkPlane zeroCellFieldDefault flatBathy)) 0)[0]? = some (some 0) := by
  refine ⟨rfl, rfl, ?_⟩
  norm_num [valuesMasked, maskCell, dryHit, insideBounds, planeLonMap,
    planeLatMap, nearestIdx, nearestStep, bathyHasOceanNeg, mkPlane, getRow,
    getCell, mapIdxFrom, zeroCellFieldDefault, flatBathy]
  intro hcontra
  simp at hcontra

/-- C9 (amended): for a surface-mode numeric field, `maskDryByBathy` is
treated as `true` unless explicitly set to `false`; and whenever the flag is
on and the loaded bathymetry has ocean-negative data (`zRaw` holds a value
below `-0.5`), an exact-zero cell whose nearest bathymetry cell has finite
depth `≥ -1e-6` is rendered missing. -/
theorem mask_dry_default_enabled_and_masks_zero (f : NumericHField)
    (b : BathyGrid) (p : PlaneCfg) (j i : ℕ) (yv xv depth : ℚ) :
    (f.maskDryByBathy ≠ some false → (mkPlane f b).maskDryByBathy = true) ∧
    (p.maskDryByBathy = true → bathyHasOceanNeg b.zRaw = true →
      p.y[j]? = some yv → p.x[i]? = some xv →
      (getRow p.values j)[i]? = some (some 0) →
      getCell (getRow b.z (nearestIdx b.lat yv)) (nearestIdx b.lon xv) =
        some depth →
      -(1/1000000 : ℚ) ≤ depth →
      (getRow (valuesMasked b (bathyHasOceanNeg b.zRaw) p) j)[i]? =
        some none) := by
  constructor
  · intro h
    have hb : (f.maskDryByBathy != some false) = true := by
      simpa [bne_iff_ne] using h
    unfold mkPlane
    cases f.lon <;> cases f.lat <;> simp only [] <;> split <;>
      first
        | exact hb
        | (split <;> exact hb)
  · intro hflag hocean hy hx hraw hdepth hge
    obtain ⟨row, hrow, hv⟩ :
        ∃ row, p.values[j]? = some row ∧ row[i]? = some (some 0) := by
      cases hrow : p.values[j]? with
      | none => rw [getRow, hrow] at hraw; simp at hraw
      | some row =>
        rw [getRow, hrow, Option.getD_some] at hraw
        exact ⟨row, rfl, hraw⟩
    rw [valuesMasked_cell b _ p j i row (some 0) hrow hv]
    have hmaps : planeLonMap b p = some (p.x.map (nearestIdx b.lon)) ∧
        planeLatMap b p = some (p.y.map (nearestIdx b.lat)) := by
      constructor <;> simp [planeLonMap, planeLatMap, hflag]
    have hdry : dryHit b (bathyHasOceanNeg b.zRaw) (planeLonMap b p)
        (planeLatMap b p) j i 0 = true := by
      rw [hmaps.1, hmaps.2]
      simp only [dryHit, List.getElem?_map, hy, hx, Option.map_some']
      rw [hdepth]
      simp only [hocean, Bool.true_and, Bool.and_eq_true, decide_eq_true_eq]
      exact ⟨trivial, hge⟩
    cases hz : p.zeroAsMissing with
    | true => simp [maskCell, hz]
    | false => simp [maskCell, hz, hdry]

/-- Witness for C9 (amended): the default flag on a field that leaves it
unset, and the dry mask firing on a concrete ocean-negative grid. -/
theorem mask_dry_default_enabled_and_masks_zero_witness :
    (mkPlane zeroCellFieldDefault dryCellBathy).maskDryByBathy = true ∧
    (getRow (valuesMasked dryCellBathy (bathyHasOceanNeg dryCellBathy.zRaw)
      ⟨[0], [0], [[some 0]], none, false, true⟩) 0)[0]? = some none := by
  refine ⟨(mask_dry_default_enabled_and_masks_zero zeroCellFieldDefault
      dryCellBathy ⟨[0], [0], [[some 0]], none, false, true⟩ 0 0 0 0 0).1
      (by decide),
    (mask_dry_default_enabled_and_masks_zero zeroCellFieldDefault
      dryCellBathy ⟨[0], [0], [[some 0]], none, false, true⟩ 0 0 0 0 0).2
      rfl (by norm_num [bathyHasOceanNeg, dryCellBathy]) rfl rfl rfl
      (by norm_num [dryCellBathy, nearestIdx, nearestStep, getRow, getCell])
      (by norm_num)⟩

/-! ## Wind-particle spawn (Basemap3D.tsx lines 636–736)

The wind layer derives a bounding box and spans from its axes (lines
648–659), samples velocities bilinearly with non-finite corners excluded
(`sample`, lines 672–703), and spawns particles by rejection sampling with a
bounded attempt count and a domain-center fallback (`spawn`, lines 723–736).
The source stores the sampled speed as `Math.hypot(uu, vv)`; the model keeps
its square (`speedMagSq`), and the spawn threshold `speedMag <= 1e-8` is
encoded equivalently as `uu² + vv² ≤ 1e-16`. -/

structure WindLayer where
  lon : List ℚ
  lat : List ℚ
  u : List (List V)
  v : List (List V)

structure WindDomain where
  nx : ℕ
  ny : ℕ
  lonMin : ℚ
  lonMax : ℚ
  latMin : ℚ
  latMax : ℚ
  lonSpan : ℚ
  latSpan : ℚ
  lonAsc : Bool
  latAsc : Bool

/-- The bounds block of the wind-layer effect (lines 648–659). -/
def mkWindDomain (L : WindLayer) : WindDomain :=
  let nx := L.lon.length
  let ny := L.lat.length
  let lonStart := L.lon.getD 0 0
  let lonEnd := L.lon.getD (nx - 1) 0
  let latStart := L.lat.getD 0 0
  let latEnd := L.lat.getD (ny - 1) 0
  { nx := nx
    ny := ny
    lonMin := min lonStart lonEnd
    lonMax := max lonStart lonEnd
    latMin := min latStart latEnd
    latMax := max latStart latEnd
    lonSpan := max (1/1000000000) (max lonStart lonEnd - min lonStart lonEnd)
    latSpan := max (1/1000000000) (max latStart latEnd - min latStart latEnd)
    lonAsc := lonStart ≤ lonEnd
    latAsc := latStart ≤ latEnd }

/-- `toLonCoord`: continuous fractional grid column of a longitude. -/
def toLonCoord (D : WindDomain) (x : ℚ) : ℚ :=
  let t := (x - D.lonMin) / D.lonSpan
  let c := t * ((D.nx : ℚ) - 1)
  if D.lonAsc then c else (D.nx : ℚ) - 1 - c

/-- `toLatCoord`: continuous fractional grid row of a latitude. -/
def toLatCoord (D : WindDomain) (y : ℚ) : ℚ :=
  let t := (y - D.latMin) / D.latSpan
  let c := t * ((D.ny : ℚ) - 1)
  if D.latAsc then c else (D.ny : ℚ) - 1 - c

/-- `Math.max(0, Math.min(n - 1, Math.floor(c)))` as a natural index. -/
def clampIdx (n : ℕ) (c : ℚ) : ℕ :=
  (max 0 (min ((n : ℤ) - 1) ⌊c⌋)).toNat

/-- The out-of-bounds guard at the top of `sample` (line 673). -/
def outOfBox (D : WindDomain) (x y : ℚ) : Prop :=
  x < D.lonMin ∨ D.lonMax < x ∨ y < D.latMin ∨ D.latMax < y

instance (D : WindDomain) (x y : ℚ) : Decidable (outOfBox D x y) := by
  unfold outOfBox; infer_instance

/-- The bilinear blend of `sample` (lines 674–702): corner weights from the
fractional offsets, non-finite corners skipped, failure when the total valid
weight is `≤ 1e-8`. -/
def sampleBlend (L : WindLayer) (x y : ℚ) : Option (ℚ × ℚ) :=
  let D := mkWindDomain L
  let cx := toLonCoord D x
  let cy := toLatCoord D y
  let i0 := clampIdx D.nx cx
  let j0 := clampIdx D.ny cy
  let i1 := min (D.nx - 1) (i0 + 1)
  let j1 := min (D.ny - 1) (j0 + 1)
  let fx := max 0 (min 1 (cx - (i0 : ℚ)))
  let fy := max 0 (min 1 (cy - (j0 : ℚ)))
  let corners : List (ℕ × ℕ × ℚ) :=
    [(i0, j0, (1 - fx) * (1 - fy)), (i1, j0, fx * (1 - fy)),
     (i0, j1, (1 - fx) * fy), (i1, j1, fx * fy)]
  let acc := corners.foldl (fun (s : ℚ × ℚ × ℚ) c =>
    match getCell (getRow L.u c.2.1) c.1, getCell (getRow L.v c.2.1) c.1 with
    | some uu, some vv =>
      (s.1 + c.2.2, s.2.1 + uu * c.2.2, s.2.2 + vv * c.2.2)
    | _, _ => s) (0, 0, 0)
  if acc.1 ≤ 1/100000000 then none
  else some (acc.2.1 / acc.1, acc.2.2 / acc.1)

/-- `sample`: `null` outside the bounding box, otherwise the bilinear
blend. -/
def sample (L : WindLayer) (x y : ℚ) : Option (ℚ × ℚ) :=
  if outOfBox (mkWindDomain L) x y then none else sampleBlend L x y

structure WindParticle where
  x : ℚ
  y : ℚ
  ttl : ℚ
  speedMagSq : ℚ
  trailX : List ℚ
  trailY : List ℚ

/-- The rejection loop of `spawn`: up to `fuel` attempts draw a uniform point
from the random stream `rnd` (attempt `k` reads draws `t`, `t+1` and, on
success, `t+2` for the TTL), requiring a valid sample with squared speed
above `1e-16`; on exhaustion, fall back to the domain center with zero
velocity. -/
def spawnLoop (L : WindLayer) (rnd : ℕ → ℚ) : ℕ → ℕ → WindParticle
  | 0, t =>
    let D := mkWindDomain L
    let x := (D.lonMin + D.lonMax) * (1/2)
    let y := (D.latMin + D.latMax) * (1/2)
    { x := x, y := y, ttl := 2 + rnd t * 6, speedMagSq := 0
      trailX := [x], trailY := [y] }
  | fuel + 1, t =>
    let D := mkWindDomain L
    let x := D.lonMin + rnd t * D.lonSpan
    let y := D.latMin + rnd (t + 1) * D.latSpan
    match sample L x y with
    | none => spawnLoop L rnd fuel (t + 2)
    | some w =>
      let m2 := w.1 * w.1 + w.2 * w.2
      if m2 ≤ 1/10000000000000000 then spawnLoop L rnd fuel (t + 2)
      else
        { x := x, y := y, ttl := 2 + rnd (t + 2) * 6, speedMagSq := m2
          trailX := [x], trailY := [y] }

/-- `spawn`: 60 attempts starting at the head of the random stream. -/
def spawn (L : WindLayer) (rnd : ℕ → ℚ) : WindParticle :=
  spawnLoop L rnd 60 0

theorem sample_some_not_outOfBox {L : WindLayer} {x y : ℚ} {w : ℚ × ℚ}
    (h : sample L x y = some w) : ¬ outOfBox (mkWindDomain L) x y := by
  intro hout
  unfold sample at h
  rw [if_pos hout] at h
  exact Option.noConfusion h

theorem spawnLoop_within (L : WindLayer) (rnd : ℕ → ℚ) (fuel t : ℕ) :
    (mkWindDomain L).lonMin ≤ (spawnLoop L rnd fuel t).x ∧
    (spawnLoop L rnd fuel t).x ≤ (mkWindDomain L).lonMax ∧
    (mkWindDomain L).latMin ≤ (spawnLoop L rnd fuel t).y ∧
    (spawnLoop L rnd fuel t).y ≤ (mkWindDomain L).latMax := by
  induction fuel generalizing t with
  | zero =>
    have hlon : (mkWindDomain L).lonMin ≤ (mkWindDomain L).lonMax :=
      min_le_max
    have hlat : (mkWindDomain L).latMin ≤ (mkWindDomain L).latMax :=
      min_le_max
    unfold spawnLoop
    refine ⟨by linarith, by linarith, by linarith, by linarith⟩
  | succ fuel ih =>
    simp only [spawnLoop]
    cases hs : sample L ((mkWindDomain L).lonMin + rnd t * (mkWindDomain L).lonSpan)
        ((mkWindDomain L).latMin + rnd (t + 1) * (mkWindDomain L).latSpan) with
    | none =>
      exact ih (t + 2)
    | some w =>
      dsimp only
      split
      · exact ih (t + 2)
      · have hbox := sample_some_not_outOfBox hs
        unfold outOfBox at hbox
        push_neg at hbox
        exact ⟨hbox.1, hbox.2.1, hbox.2.2.1, hbox.2.2.2⟩

/-- C7: immediately after a spawn, the particle's position lies within the
wind layer's lon/lat bounding box — both when a valid-velocity point was
found within the bounded attempts and when the domain-center fallback was
taken. -/
theorem spawn_within_domain (L : WindLayer) (rnd : ℕ → ℚ) :
    (mkWindDomain L).lonMin ≤ (spawn L rnd).x ∧
    (spawn L rnd).x ≤ (mkWindDomain L).lonMax ∧
    (mkWindDomain L).latMin ≤ (spawn L rnd).y ∧
    (spawn L rnd).y ≤ (mkWindDomain L).latMax :=
  spawnLoop_within L rnd 60 0

/-! ## Linear palette builder (`makeLinearPalette`, colormap.ts lines 18–40)

Hex color stops are modelled by their parsed 24-bit values (`hexToRgb` in the
source parses the 6-hex-digit string with `parseInt(h, 16)` and extracts the
byte fields; the string-parsing step is outside the model).  A thrown
exception (`fewer than 2 stops`) is modelled as `none`.  `Math.round` is
JavaScript's round-half-up, `⌊x + 1/2⌋`. -/

structure RGB where
  r : ℕ
  g : ℕ
  b : ℕ
deriving DecidableEq

/-- JavaScript `Math.round`: round half toward positive infinity. -/
def jsRound (q : ℚ) : ℤ := ⌊q + 1/2⌋

/-- `clampByte`: `Math.max(0, Math.min(255, Math.round(x)))`. -/
def clampByte (x : ℚ) : ℕ := (max 0 (min 255 (jsRound x))).toNat

/-- `hexToRgb` on the parsed 24-bit value. -/
def hexToRgb (n : ℕ) : RGB :=
  { r := (n >>> 16) &&& 255, g := (n >>> 8) &&& 255, b := n &&& 255 }

/-- `lerp(a, b, t) = a + (b - a) * t`. -/
def lerp (a b t : ℚ) : ℚ := a + (b - a) * t

/-- `makeLinearPalette`: empty for `n = 0` (`n <= 0` in the source), an error
for fewer than 2 stops, the first stop alone for `n = 1`, and otherwise `n`
evenly spaced samples along the piecewise-linear path through the stops.
`seg + 1 ≤ segments < stops.length`, so the `getD` defaults are
unreachable. -/
def makeLinearPalette (hexStops : List ℕ) (n : ℕ) : Option (List RGB) :=
  if n = 0 then some []
  else if hexStops.length < 2 then none
  else if n = 1 then some [hexToRgb (hexStops.getD 0 0)]
  else
    let stops := hexStops.map hexToRgb
    let segments := stops.length - 1
    some ((List.range n).map (fun i : ℕ =>
      let t : ℚ := (i : ℚ) / ((n : ℚ) - 1)
      let s := t * (segments : ℚ)
      let seg := (min ((segments : ℤ) - 1) ⌊s⌋).toNat
      let locl := s - (seg : ℚ)
      let a := stops.getD seg ⟨0, 0, 0⟩
      let b := stops.getD (seg + 1) ⟨0, 0, 0⟩
      { r := clampByte (lerp (a.r : ℚ) (b.r : ℚ) locl)
        g := clampByte (lerp (a.g : ℚ) (b.g : ℚ) locl)
        b := clampByte (lerp (a.b : ℚ) (b.b : ℚ) locl) }))

/-- C8: with at least 2 stops, `makeLinearPalette` never fails, returns
exactly `n` colors for every requested count `n`, and for `n = 1` returns
the first color stop unchanged. -/
theorem makeLinearPalette_length_and_single (hexStops : List ℕ) (n : ℕ)
    (h : 2 ≤ hexStops.length) :
    ∃ pal, makeLinearPalette hexStops n = some pal ∧ pal.length = n ∧
      (n = 1 → pal = [hexToRgb (hexStops.getD 0 0)]) := by
  have hlt : ¬ hexStops.length < 2 := not_lt.mpr h
  unfold makeLinearPalette
  by_cases h0 : n = 0
  · subst h0
    exact ⟨[], by rw [if_pos rfl], rfl, by intro h1; exact absurd h1 (by norm_num)⟩
  · by_cases h1 : n = 1
    · subst h1
      refine ⟨[hexToRgb (hexStops.getD 0 0)], ?_, rfl, fun _ => rfl⟩
      rw [if_neg one_ne_zero, if_neg hlt, if_pos rfl]
    · rw [if_neg h0, if_neg hlt, if_neg h1]
      refine ⟨_, rfl, ?_, fun hc => absurd hc h1⟩
      simp [List.length_map, List.length_range]

/-- Witness for C8 with 3 concrete stops and `n = 5`, plus the `n = 1`
case. -/
theorem makeLinearPalette_length_and_single_witness :
    (∃ pal, makeLinearPalette [0x313695, 0xffffbf, 0xa50026] 5 = some pal ∧
      pal.length = 5 ∧ (5 = 1 → pal = [hexToRgb 0x313695])) ∧
    (∃ pal, makeLinearPalette [0x313695, 0xffffbf, 0xa50026] 1 = some pal ∧
      pal.length = 1 ∧
      (1 = 1 → pal = [hexToRgb (List.getD [0x313695, 0xffffbf, 0xa50026] 0 0)])) := by
  constructor
  · exact makeLinearPalette_length_and_single _ 5 (by norm_num)
  · exact makeLinearPalette_length_and_single _ 1 (by norm_num)

/-! ## RGB332 quantization (`rgbToIndex332` / `index332ToRgb`,
imageSampling.ts lines 26–42) -/

/-- `rgbToIndex332`: pack the top 3/3/2 bits of the channels. -/
def rgbToIndex332 (r g b : ℕ) : ℕ :=
  let r3 := r >>> 5
  let g3 := g >>> 5
  let b2 := b >>> 6
  ((r3 <<< 5) ||| (g3 <<< 2)) ||| b2

/-- `index332ToRgb`: expand a palette index back to representative channel
values via `Math.round(r3 * 255 / 7)` (and `b2 * 255 / 3`). -/
def index332ToRgb (idx : ℕ) : RGB :=
  let r3 := (idx >>> 5) &&& 7
  let g3 := (idx >>> 2) &&& 7
  let b2 := idx &&& 3
  { r := (jsRound ((r3 : ℚ) * 255 / 7)).toNat
    g := (jsRound ((g3 : ℚ) * 255 / 7)).toNat
    b := (jsRound ((b2 : ℚ) * 255 / 3)).toNat }

theorem jsRound_natCast_mul_div (m c d : ℕ) (hd : 0 < d) :
    (jsRound ((m : ℚ) * c / d)).toNat = (2 * (m * c) + d) / (2 * d) := by
  unfold jsRound
  have hq : (m : ℚ) * c / d + 1/2 =
      ((2 * (m * c) + d : ℕ) : ℚ) / ((2 * d : ℕ) : ℚ) := by
    have hd0 : ((d : ℚ)) ≠ 0 := by positivity
    push_cast
    field_simp
    ring
  rw [hq, Rat.floor_natCast_div_natCast]
  rw [← Int.ofNat_ediv]
  exact Int.toNat_natCast _

theorem index332ToRgb_as_nat (idx : ℕ) :
    index332ToRgb idx =
      { r := (2 * ((((idx >>> 5) &&& 7)) * 255) + 7) / 14
        g := (2 * ((((idx >>> 2) &&& 7)) * 255) + 7) / 14
        b := (2 * (((idx &&& 3)) * 255) + 3) / 6 } := by
  unfold index332ToRgb
  refine congrArg₂ (fun a bc => RGB.mk a bc.1 bc.2) ?_ (congrArg₂ Prod.mk ?_ ?_)
  · simpa using jsRound_natCast_mul_div ((idx >>> 5) &&& 7) 255 7 (by norm_num)
  · simpa using jsRound_natCast_mul_div ((idx >>> 2) &&& 7) 255 7 (by norm_num)
  · simpa using jsRound_natCast_mul_div (idx &&& 3) 255 3 (by norm_num)

set_option maxRecDepth 16000 in
/-- C10: the RGB332 quantization round-trips on its codomain: for every
index in `[0, 255]`, re-quantizing the expanded channel values returns the
same index. -/
theorem rgb332_roundtrip_on_codomain : ∀ idx : ℕ, idx < 256 →
    rgbToIndex332 (index332ToRgb idx).r (index332ToRgb idx).g
      (index332ToRgb idx).b = idx := by
  have hnat : ∀ idx : ℕ, idx < 256 →
      rgbToIndex332 ((2 * ((((idx >>> 5) &&& 7)) * 255) + 7) / 14)
        ((2 * ((((idx >>> 2) &&& 7)) * 255) + 7) / 14)
        ((2 * (((idx &&& 3)) * 255) + 3) / 6) = idx := by decide
  intro idx hidx
  rw [index332ToRgb_as_nat]
  exact hnat idx hidx

/-- Witness for C10 at index 200. -/
theorem rgb332_roundtrip_on_codomain_witness :
    rgbToIndex332 (index332ToRgb 200).r (index332ToRgb 200).g
      (index332ToRgb 200).b = 200 :=
  rgb332_roundtrip_on_codomain 200 (by norm_num)
